import Mathlib

/-!
Verification development for `Evaluation/generation_eval.py` of the
GraphRAG-Benchmark repository.

The script is an async evaluation driver: `evaluate_sample` dispatches the
requested metric computations for one sample, `evaluate_dataset` fans out one
`evaluate_sample` task per sample, collects the results in completion order,
and aggregates per-metric scores with `np.nanmean` after filtering out
non-numeric and NaN scores, and `main` checks the `OPENAI_API_KEY` credential,
loads data, evaluates the four question-type groups against the static
`metric_config` table, and serializes the results with `json.dump`.

Python float scores are modelled as an inductive `Score` (finite numbers as
rationals, the two infinities, NaN, and a non-numeric catch-all), and the
values that numpy arithmetic produces as the extended type `XR`, whose
addition follows IEEE semantics at the level visible to this program
(infinity plus the opposite infinity is NaN, NaN is absorbing).
-/

/-- Score is a per-metric value as returned by a metric computer and stored in a
per-sample result dict: a finite `int`/`float` (modelled as a rational), one of
the two float infinities, float NaN, or any non-numeric Python value. -/
inductive Score where
  | num (q : ℚ)
  | inf
  | ninf
  | nan
  | nonNum
  deriving DecidableEq, Repr

/-- XR is an extended numeric value as produced by numpy arithmetic over float
arrays: finite, plus infinity, minus infinity, or NaN. -/
inductive XR where
  | fin (q : ℚ)
  | pinf
  | ninf
  | nan
  deriving DecidableEq, Repr

/-- Keep is the aggregation filter of `evaluate_dataset` (line 58):
`isinstance(score, (int, float)) and not np.isnan(score)`.  Finite numbers and
the infinities are `float` instances with `isnan` false, so they pass; NaN is a
`float` with `isnan` true, so it is dropped; non-numeric values fail the
`isinstance` test. -/
def Score.keep : Score → Bool
  | .num _ => true
  | .inf => true
  | .ninf => true
  | .nan => false
  | .nonNum => false

/-- Reading a kept Python score as the extended value numpy computes with. -/
def Score.toXR : Score → XR
  | .num q => .fin q
  | .inf => .pinf
  | .ninf => .ninf
  | .nan => .nan
  | .nonNum => .nan

/-- NaN test on extended values, as `np.isnan`. -/
def XR.isNan : XR → Bool
  | .nan => true
  | _ => false

/-- Addition of extended values with IEEE semantics: NaN is absorbing and the
sum of opposite infinities is NaN. -/
def XR.add : XR → XR → XR
  | .nan, _ => .nan
  | .fin _, .nan => .nan
  | .pinf, .nan => .nan
  | .ninf, .nan => .nan
  | .fin a, .fin b => .fin (a + b)
  | .fin _, .pinf => .pinf
  | .fin _, .ninf => .ninf
  | .pinf, .fin _ => .pinf
  | .ninf, .fin _ => .ninf
  | .pinf, .pinf => .pinf
  | .ninf, .ninf => .ninf
  | .pinf, .ninf => .nan
  | .ninf, .pinf => .nan

/-- Division of an extended value by a sample count. -/
def XR.divNat : XR → Nat → XR
  | .fin q, n => .fin (q / (n : ℚ))
  | .pinf, _ => .pinf
  | .ninf, _ => .ninf
  | .nan, _ => .nan

/-- Model of `np.nanmean`: ignore NaN entries, and return the sum of the rest
divided by their count; on an empty (or all-NaN) input the result is NaN (numpy
emits a RuntimeWarning there, not an exception). -/
def nanmean (xs : List XR) : XR :=
  let ys := xs.filter (fun x => !x.isNan)
  if ys.length = 0 then XR.nan
  else XR.divNat (ys.foldl XR.add (XR.fin 0)) ys.length

/-- SampleResult is one per-sample result dict, metric name to score, in
insertion order. -/
abbrev SampleResult := List (String × Score)

/-- Model of the per-metric score collection of `evaluate_dataset`
(lines 56-59): iterate over the sample results in collection order, and for
each entry for `metric` that passes the `Score.keep` filter append its value
to the metric's list. -/
def collect_metric_scores (metric : String) (sampleResults : List SampleResult) : List XR :=
  ((sampleResults.map (fun s =>
      s.filter (fun p => p.1 = metric ∧ p.2.keep))).flatten).map (fun p => p.2.toXR)

/-- Model of the final dict comprehension of `evaluate_dataset` (line 61):
the returned mapping has exactly the requested metric names as keys, each bound
to the `nanmean` of its collected scores. -/
def aggregate_results (metrics : List String) (sampleResults : List SampleResult) :
    String → Option XR :=
  fun m =>
    if m ∈ metrics then some (nanmean (collect_metric_scores m sampleResults)) else none

/-- Sample carries the four per-sample fields of the script. -/
structure Sample where
  question : String
  answer : String
  contexts : List String
  ground_truth : String
  deriving DecidableEq, Repr

/-- MetricCall is one outbound call into the metrics module, recording which
computer is invoked and exactly the sample fields it is handed, mirroring the
call sites of `evaluate_sample` (lines 76-92).  The judge-model and
embedding-model handles are shared by reference, so they are not part of the
call payload; which computer receives which handle is recorded by
`MetricCall.usesJudge` and `MetricCall.usesEmbedding` below. -/
inductive MetricCall where
  | rougeCall (answer groundTruth : String)
  | correctnessCall (question answer groundTruth : String)
  | coverageCall (question groundTruth answer : String)
  | faithfulnessCall (question answer : String) (contexts : List String)
  deriving DecidableEq, Repr

/-- Judge-model usage per call site: `compute_rouge_score` takes no model
handle, while the other three computers each receive `llm`. -/
def MetricCall.usesJudge : MetricCall → Bool
  | .rougeCall .. => false
  | .correctnessCall .. => true
  | .coverageCall .. => true
  | .faithfulnessCall .. => true

/-- Embedding-model usage per call site: only `compute_answer_correctness`
receives `embeddings`. -/
def MetricCall.usesEmbedding : MetricCall → Bool
  | .correctnessCall .. => true
  | _ => false

/-- Metric names that `evaluate_sample` recognizes, in the order of its four
membership tests. -/
def supportedMetrics : List String :=
  ["rouge_score", "answer_correctness", "coverage_score", "faithfulness"]

/-- Model of the `tasks` dict built by `evaluate_sample` (lines 75-92): for
each of the four supported metric names, if it occurs in the requested list, a
task keyed by that name is inserted, carrying exactly the fields the code
passes to that computer.  Python dicts preserve insertion order, so the model
is an ordered association list. -/
def metricTasks (s : Sample) (metrics : List String) : List (String × MetricCall) :=
  (if "rouge_score" ∈ metrics then
    [("rouge_score", MetricCall.rougeCall s.answer s.ground_truth)] else []) ++
  (if "answer_correctness" ∈ metrics then
    [("answer_correctness", MetricCall.correctnessCall s.question s.answer s.ground_truth)]
   else []) ++
  (if "coverage_score" ∈ metrics then
    [("coverage_score", MetricCall.coverageCall s.question s.ground_truth s.answer)] else []) ++
  (if "faithfulness" ∈ metrics then
    [("faithfulness", MetricCall.faithfulnessCall s.question s.answer s.contexts)] else [])

/-- Oracle is the external metrics module: each call either returns a score or
raises (modelled as `Except.error` with the exception message). -/
abbrev Oracle := MetricCall → Except String Score

/-- Model of `asyncio.gather` over `tasks.values()` followed by the result zip
in `evaluate_sample` (lines 94-97): every task's score is awaited and paired
with its metric name; if a task raises, `gather` propagates the exception
(modelled deterministically as the first failing task in insertion order) and
no partial result dict is produced. -/
def gatherScores (oracle : Oracle) : List (String × MetricCall) → Except String SampleResult
  | [] => Except.ok []
  | (m, c) :: rest =>
    match oracle c with
    | Except.error e => Except.error e
    | Except.ok score =>
      match gatherScores oracle rest with
      | Except.error e => Except.error e
      | Except.ok others => Except.ok ((m, score) :: others)

/-- Model of `evaluate_sample`: build the task dict for the requested metrics
and gather the scores. -/
def evaluate_sample (oracle : Oracle) (s : Sample) (metrics : List String) :
    Except String SampleResult :=
  gatherScores oracle (metricTasks s metrics)

/-- Model of the `tasks` list of `evaluate_dataset` (lines 34-46): one
`evaluate_sample` invocation per sample, in dataset order. -/
def datasetTasks (oracle : Oracle) (samples : List Sample) (metrics : List String) :
    List (Except String SampleResult) :=
  samples.map (fun s => evaluate_sample oracle s metrics)

/-- Default used for an out-of-range task index; `asyncio.as_completed` only
ever yields indices of submitted tasks, so theorems constrain the completion
order to be a permutation of the task indices. -/
def noTask : Except String SampleResult := Except.error "no such task"

/-- Model of the `as_completed` collection loop of `evaluate_dataset`
(lines 49-53): the futures are awaited in completion order (an arbitrary
permutation of the task indices) and their results appended to
`sample_results`; the first awaited future that raises propagates its
exception out of the loop. -/
def collectedResults (tasks : List (Except String SampleResult)) :
    List Nat → Except String (List SampleResult)
  | [] => Except.ok []
  | i :: rest =>
    match tasks.getD i noTask with
    | Except.error e => Except.error e
    | Except.ok r =>
      match collectedResults tasks rest with
      | Except.error e => Except.error e
      | Except.ok rs => Except.ok (r :: rs)

/-- Model of `evaluate_dataset` (lines 16-61): fan out one task per sample,
collect the results in completion order `order`, then aggregate. -/
def evaluate_dataset (oracle : Oracle) (samples : List Sample) (metrics : List String)
    (order : List Nat) : Except String (String → Option XR) :=
  (collectedResults (datasetTasks oracle samples metrics) order).map
    (aggregate_results metrics)

/-- Oracle for a run in which no metric computation raises: every call returns
the score given by `scores`. -/
def okOracle (scores : MetricCall → Score) : Oracle :=
  fun c => Except.ok (scores c)

/-- Result dict produced by `evaluate_sample` when no computation raises. -/
def sampleResultOk (scores : MetricCall → Score) (s : Sample) (metrics : List String) :
    SampleResult :=
  (metricTasks s metrics).map (fun p => (p.1, scores p.2))

/-- Static metric configuration of `main` (lines 127-132), mapping each
question-type name to its metric list. -/
def metric_config : String → List String
  | "type1" => ["rouge_score", "answer_correctness"]
  | "type2" => ["rouge_score", "answer_correctness"]
  | "type3" => ["answer_correctness", "coverage_score"]
  | "type4" => ["answer_correctness", "coverage_score", "faithfulness"]
  | _ => []

/-- Question-type names in the fixed evaluation order of `main` (line 137). -/
def questionTypes : List String := ["type1", "type2", "type3", "type4"]

/-- Args are the command-line arguments of the script, with the defaults of its
argument declarations. -/
structure Args where
  model : String := "gpt-4-turbo"
  base_url : String := "https://api.openai.com/v1"
  bge_model : String := "BAAI/bge-large-en-v1.5"
  data_file : String
  output_file : String := "evaluation_results.json"
  deriving DecidableEq, Repr

/-- Effect is one externally visible effect of `main`, in the order the code
performs them: constructing the network-backed judge-model client, loading the
embedding model, reading the data file, evaluating one question-type group,
writing the output file. -/
inductive Effect where
  | llmInit (model apiKey : String)
  | embedInit (model : String)
  | fileRead (path : String)
  | evalGroup (questionType : String)
  | fileWrite (path : String)
  deriving DecidableEq, Repr

/-- Effect trace of `main` after the credential check has passed (lines
107-174): judge-model client construction, embedding-model load, data-file
read, the four group evaluations in fixed order, and the output write when an
output path is configured (`if args.output_file:` is Python truthiness, so the
empty string suppresses the write). -/
def driverBody (key : String) (args : Args) : List Effect :=
  [Effect.llmInit args.model key, Effect.embedInit args.bge_model,
   Effect.fileRead args.data_file] ++
  questionTypes.map Effect.evalGroup ++
  (if args.output_file = "" then [] else [Effect.fileWrite args.output_file])

/-- Python truthiness of `os.getenv(key)`: false when the variable is unset
(`None`) and when it is set to the empty string. -/
def getenvTruthy (env : String → Option String) (key : String) : Bool :=
  match env key with
  | none => false
  | some s => !(s == "")

/-- Model of `main` (lines 101-174) as its effect trace: the very first
statement checks `os.getenv` under Python truthiness and raises
`ValueError` before any client construction, file access or evaluation work;
otherwise the driver body runs unchanged.  An `Except.error` result carries
an empty trace: nothing was performed before the raise. -/
def mainActions (env : String → Option String) (args : Args) :
    Except String (List Effect) :=
  if getenvTruthy env "OPENAI_API_KEY" then
    Except.ok (driverBody ((env "OPENAI_API_KEY").getD "") args)
  else
    Except.error "OPENAI_API_KEY environment variable is not set"

/-- Jval models a JSON document as handled by Python's `json` module with its
default `allow_nan=True`: finite numbers, the non-standard literals `NaN`,
`Infinity` and `-Infinity` that `json.dump` emits for the corresponding floats
and `json.load` parses back, and objects with insertion-ordered fields. -/
inductive Jval where
  | jnum (q : ℚ)
  | jnan
  | jinf (neg : Bool)
  | jobj (fields : List (String × Jval))

/-- AggregateReport is the `all_results` mapping of `main`: question-type name
to metric name to aggregate score, in insertion order. -/
abbrev AggregateReport := List (String × List (String × XR))

/-- Serialization of one aggregate score as `json.dump` writes the
corresponding float: finite floats as numbers, NaN and the infinities as the
module's non-standard literals. -/
def serializeScore : XR → Jval
  | .fin q => .jnum q
  | .pinf => .jinf false
  | .ninf => .jinf true
  | .nan => .jnan

/-- Serialization of the report as `json.dump(all_results, f, indent=2)`
produces it: an object of objects of numbers, all keys kept. -/
def serializeReport (r : AggregateReport) : Jval :=
  .jobj (r.map (fun g => (g.1, Jval.jobj (g.2.map (fun m => (m.1, serializeScore m.2))))))

/-- Parsing one score back from a JSON value, as `json.load` reads a float. -/
def parseScore : Jval → Option XR
  | .jnum q => some (.fin q)
  | .jnan => some .nan
  | .jinf false => some .pinf
  | .jinf true => some .ninf
  | .jobj _ => none

/-- Parsing the fields of one group object back into a metric-to-score map. -/
def parseMetricFields : List (String × Jval) → Option (List (String × XR))
  | [] => some []
  | (k, v) :: rest =>
    match parseScore v, parseMetricFields rest with
    | some x, some xs => some ((k, x) :: xs)
    | _, _ => none

/-- Parsing one group object back into a metric-to-score map; only an object
value is accepted. -/
def parseMetricMap : Jval → Option (List (String × XR))
  | .jobj fields => parseMetricFields fields
  | _ => none

/-- Parsing the fields of the top-level object back into the report. -/
def parseGroupFields : List (String × Jval) → Option AggregateReport
  | [] => some []
  | (k, v) :: rest =>
    match parseMetricMap v, parseGroupFields rest with
    | some ms, some gs => some ((k, ms) :: gs)
    | _, _ => none

/-- Parsing a whole report from a JSON document. -/
def parseReport : Jval → Option AggregateReport
  | .jobj fields => parseGroupFields fields
  | _ => none

/-- Concrete sample used to instantiate the theorems. -/
def sample0 : Sample :=
  { question := "q0", answer := "a0", contexts := ["c0"], ground_truth := "g0" }

/-- Second concrete sample used to instantiate the theorems. -/
def sample1 : Sample :=
  { question := "q1", answer := "a1", contexts := [], ground_truth := "g1" }

/-- Concrete scoring function for failure-free runs. -/
def scores0 : MetricCall → Score := fun _ => Score.num 1

/-- Oracle for a simulated downstream outage: every metric computation
raises. -/
def failOracle : Oracle := fun _ => Except.error "judge model unavailable"

/-- Environment in which the API key variable is set to the empty string. -/
def envEmptyKey : String → Option String :=
  fun k => if k = "OPENAI_API_KEY" then some "" else none

/-- Environment in which the API key variable is unset. -/
def envNoKey : String → Option String := fun _ => none

/-- Environment in which the API key variable holds a non-empty value. -/
def envWithKey : String → Option String :=
  fun k => if k = "OPENAI_API_KEY" then some "sk-test" else none

/-- Concrete command-line arguments with the script's defaults. -/
def args0 : Args := { data_file := "data.json" }

/-- Adding two values to an accumulator commutes, as for IEEE-style extended
values with an absorbing NaN. -/
theorem XR.add_right_comm (b x y : XR) :
    XR.add (XR.add b x) y = XR.add (XR.add b y) x := by
  cases b <;> cases x <;> cases y
  all_goals simp only [XR.add, XR.fin.injEq]
  ring

/-- Folding the extended addition is invariant under permutation of the
summands. -/
theorem XR.foldl_add_perm {l1 l2 : List XR} (h : l1.Perm l2) :
    ∀ b : XR, l1.foldl XR.add b = l2.foldl XR.add b := by
  induction h with
  | nil => intro b; rfl
  | cons x _ ih => intro b; simpa using ih (XR.add b x)
  | swap x y l => intro b; simp only [List.foldl_cons]; rw [XR.add_right_comm]
  | trans _ _ ih1 ih2 => intro b; rw [ih1 b, ih2 b]

/-- The nanmean of a permuted score list is unchanged. -/
theorem nanmean_perm {l1 l2 : List XR} (h : l1.Perm l2) : nanmean l1 = nanmean l2 := by
  have hf : (l1.filter (fun x => !x.isNan)).Perm (l2.filter (fun x => !x.isNan)) :=
    h.filter _
  simp only [nanmean]
  rw [hf.length_eq, XR.foldl_add_perm hf (XR.fin 0)]

/-- Folding the extended addition over finite values sums the rationals. -/
theorem XR.foldl_add_fin (qs : List ℚ) :
    ∀ b : ℚ, (qs.map XR.fin).foldl XR.add (XR.fin b) = XR.fin (b + qs.sum) := by
  induction qs with
  | nil => intro b; simp
  | cons q qs ih =>
    intro b
    simp only [List.map_cons, List.foldl_cons, XR.add, List.sum_cons]
    rw [ih (b + q), add_assoc]

/-- The nanmean of a non-empty list of finite scores is their arithmetic
mean. -/
theorem nanmean_map_fin (qs : List ℚ) (h : qs ≠ []) :
    nanmean (qs.map XR.fin) = XR.fin (qs.sum / (qs.length : ℚ)) := by
  have hfilter : (qs.map XR.fin).filter (fun x => !x.isNan) = qs.map XR.fin := by
    rw [List.filter_eq_self]
    intro x hx
    obtain ⟨q, _, rfl⟩ := List.mem_map.mp hx
    rfl
  have hlen : (qs.map XR.fin).length = qs.length := List.length_map _ _
  simp only [nanmean, hfilter, hlen]
  rw [if_neg (by simpa using h), XR.foldl_add_fin qs 0, zero_add]
  rfl

/-- Unfolding of the per-metric score collection over one more sample. -/
theorem collect_metric_scores_cons (m : String) (r : SampleResult)
    (rs : List SampleResult) :
    collect_metric_scores m (r :: rs) =
      (r.filter (fun p => p.1 = m ∧ p.2.keep)).map (fun p => p.2.toXR)
        ++ collect_metric_scores m rs := by
  simp [collect_metric_scores]

/-- A metric name that occurs in no sample result collects no scores. -/
theorem collect_metric_scores_no_key (m : String) (rs : List SampleResult)
    (h : ∀ r ∈ rs, ∀ p ∈ r, p.1 ≠ m) : collect_metric_scores m rs = [] := by
  induction rs with
  | nil => rfl
  | cons r rest ih =>
    rw [collect_metric_scores_cons]
    have hr : r.filter (fun p => p.1 = m ∧ p.2.keep) = [] := by
      rw [List.filter_eq_nil_iff]
      intro p hp
      simp [h r (List.mem_cons_self r rest) p hp]
    rw [hr, ih (fun r2 h2 => h r2 (List.mem_cons_of_mem r h2))]
    rfl

/-- The task names built by `evaluate_sample` are exactly the supported metric
names that occur in the requested list, in the fixed dispatch order. -/
theorem metricTasks_names (s : Sample) (metrics : List String) :
    (metricTasks s metrics).map Prod.fst
      = supportedMetrics.filter (fun m => m ∈ metrics) := by
  by_cases h1 : "rouge_score" ∈ metrics <;>
  by_cases h2 : "answer_correctness" ∈ metrics <;>
  by_cases h3 : "coverage_score" ∈ metrics <;>
  by_cases h4 : "faithfulness" ∈ metrics <;>
  simp [metricTasks, supportedMetrics, h1, h2, h3, h4]

/-- When no metric computation raises, the gather step returns every
(name, score) pair in task order. -/
theorem gatherScores_ok (scores : MetricCall → Score) :
    ∀ calls : List (String × MetricCall),
      gatherScores (okOracle scores) calls
        = Except.ok (calls.map (fun p => (p.1, scores p.2))) := by
  intro calls
  induction calls with
  | nil => rfl
  | cons c rest ih =>
    obtain ⟨m, call⟩ := c
    simp [gatherScores, okOracle, ih]

/-- When no metric computation raises, `evaluate_sample` returns the result
dict described by `sampleResultOk`. -/
theorem evaluate_sample_okEq (scores : MetricCall → Score) (s : Sample)
    (metrics : List String) :
    evaluate_sample (okOracle scores) s metrics
      = Except.ok (sampleResultOk scores s metrics) :=
  gatherScores_ok scores (metricTasks s metrics)

/-- When every awaited future succeeds, the collection loop returns the task
results in completion order. -/
theorem collectedResults_ok (tasks : List (Except String SampleResult))
    (g : Nat → SampleResult) :
    ∀ order : List Nat, (∀ i ∈ order, tasks.getD i noTask = Except.ok (g i)) →
      collectedResults tasks order = Except.ok (order.map g) := by
  intro order
  induction order with
  | nil => intro _; rfl
  | cons i rest ih =>
    intro h
    have hi := h i (List.mem_cons_self i rest)
    have hrest := ih (fun j hj => h j (List.mem_cons_of_mem i hj))
    simp only [collectedResults, hi, hrest, List.map_cons]

/-- If some requested computation raises, the gather step raises. -/
theorem gatherScores_error (oracle : Oracle) :
    ∀ calls : List (String × MetricCall),
      (∃ p ∈ calls, ∃ e, oracle p.2 = Except.error e) →
      ∃ e, gatherScores oracle calls = Except.error e := by
  intro calls
  induction calls with
  | nil =>
    rintro ⟨p, hp, _⟩
    cases hp
  | cons c rest ih =>
    obtain ⟨m, call⟩ := c
    rintro ⟨p, hp, e, he⟩
    rcases List.mem_cons.mp hp with rfl | hmem
    · exact ⟨e, by simp [gatherScores, he]⟩
    · cases hoc : oracle call with
      | error e2 => exact ⟨e2, by simp [gatherScores, hoc]⟩
      | ok sc =>
        obtain ⟨e2, h2⟩ := ih ⟨p, hmem, e, he⟩
        exact ⟨e2, by simp [gatherScores, hoc, h2]⟩

/-- If some awaited future raised, the collection loop raises. -/
theorem collectedResults_error (tasks : List (Except String SampleResult)) :
    ∀ order : List Nat,
      (∃ i ∈ order, ∃ e, tasks.getD i noTask = Except.error e) →
      ∃ e, collectedResults tasks order = Except.error e := by
  intro order
  induction order with
  | nil =>
    rintro ⟨i, hi, _⟩
    cases hi
  | cons i rest ih =>
    rintro ⟨j, hj, e, he⟩
    rcases List.mem_cons.mp hj with rfl | hmem
    · exact ⟨e, by simp only [collectedResults, he]⟩
    · cases hoc : tasks.getD i noTask with
      | error e2 => exact ⟨e2, by simp only [collectedResults, hoc]⟩
      | ok r =>
        obtain ⟨e2, h2⟩ := ih ⟨j, hmem, e, he⟩
        exact ⟨e2, by simp only [collectedResults, hoc, h2]⟩

/-- Fetching an index below the length from a mapped list applies the function
to the fetched element. -/
theorem getD_map_lt {α β : Type} (f : α → β) (l : List α) (i : Nat)
    (hi : i < l.length) (d : β) (d2 : α) :
    (l.map f).getD i d = f (l.getD i d2) := by
  have hi2 : i < (l.map f).length := by simpa using hi
  rw [List.getD_eq_getElem _ _ hi2, List.getD_eq_getElem _ _ hi]
  simp

/-- Reading every index of a list in order reproduces the list. -/
theorem getD_range_map {α : Type} (l : List α) (d : α) :
    (List.range l.length).map (fun i => l.getD i d) = l := by
  induction l with
  | nil => rfl
  | cons a l ih =>
    rw [List.length_cons, List.range_succ_eq_map]
    simp only [List.map_cons, List.getD_cons_zero, List.map_map]
    rw [show ((fun i => (a :: l).getD i d) ∘ Nat.succ) = fun i => l.getD i d from rfl, ih]

/-- Fan-out and collection of a failure-free run: for any completion order
that is a permutation of the task indices, the collection loop succeeds and
returns one result per sample, a permutation of the per-sample results in
dataset order; the dataset evaluation then aggregates exactly those results. -/
theorem collected_fanout (scores : MetricCall → Score) (samples : List Sample)
    (metrics : List String) (order : List Nat)
    (h : order.Perm (List.range samples.length)) :
    ∃ rs : List SampleResult,
      collectedResults (datasetTasks (okOracle scores) samples metrics) order
        = Except.ok rs
      ∧ rs.length = samples.length
      ∧ rs.Perm (samples.map (fun s => sampleResultOk scores s metrics))
      ∧ evaluate_dataset (okOracle scores) samples metrics order
          = Except.ok (aggregate_results metrics rs) := by
  classical
  set mapped := samples.map (fun s => sampleResultOk scores s metrics) with hmapped
  have hlen : mapped.length = samples.length := by simp [hmapped]
  have htasks : datasetTasks (okOracle scores) samples metrics = mapped.map Except.ok := by
    simp [datasetTasks, hmapped, evaluate_sample_okEq]
  have hget : ∀ i ∈ order,
      (datasetTasks (okOracle scores) samples metrics).getD i noTask
        = Except.ok (mapped.getD i []) := by
    intro i hi
    have hilt : i < samples.length := List.mem_range.mp (h.subset hi)
    rw [htasks]
    exact getD_map_lt Except.ok mapped i (by rw [hlen]; exact hilt) noTask []
  have hcoll := collectedResults_ok _ (fun i => mapped.getD i []) order hget
  refine ⟨order.map (fun i => mapped.getD i []), hcoll, ?_, ?_, ?_⟩
  · rw [List.length_map, h.length_eq, List.length_range]
  · have hperm : (order.map (fun i => mapped.getD i [])).Perm
        ((List.range samples.length).map (fun i => mapped.getD i [])) :=
      h.map _
    rw [← hlen] at hperm
    rwa [getD_range_map mapped []] at hperm
  · rw [evaluate_dataset, hcoll]
    rfl


/-- Round trip for one score: parsing the serialized float returns it. -/
theorem parseScore_serializeScore (x : XR) : parseScore (serializeScore x) = some x := by
  cases x <;> rfl

/-- Round trip for one group object: parsing the serialized metric map returns
it. -/
theorem parseMetricFields_serialize (l : List (String × XR)) :
    parseMetricFields (l.map (fun m => (m.1, serializeScore m.2))) = some l := by
  induction l with
  | nil => rfl
  | cons m rest ih =>
    obtain ⟨k, x⟩ := m
    simp only [List.map_cons, parseMetricFields, parseScore_serializeScore, ih]

/-- Round trip for the top-level object fields. -/
theorem parseGroupFields_serialize (r : AggregateReport) :
    parseGroupFields (r.map (fun g =>
      (g.1, Jval.jobj (g.2.map (fun m => (m.1, serializeScore m.2)))))) = some r := by
  induction r with
  | nil => rfl
  | cons g rest ih =>
    obtain ⟨k, ms⟩ := g
    simp only [List.map_cons, parseGroupFields, parseMetricMap,
      parseMetricFields_serialize, ih]

/-- C1: for every metric requested of `evaluate_dataset`, when the collected
well-defined scores are the finite values `qs`, a non-empty collection
aggregates to exactly their arithmetic mean, and an empty collection
aggregates to the NaN marker, which is distinct from the score zero; the
aggregation map is a total function, so no exception arises.  The `hkeys`
hypothesis records that every result key was initialized in the results dict,
as is the case for every dict `evaluate_sample` returns. -/
theorem aggregate_mean_or_undefined (metrics : List String) (rs : List SampleResult)
    (m : String) (qs : List ℚ) (hm : m ∈ metrics)
    (_hkeys : ∀ r ∈ rs, ∀ p ∈ r, p.1 ∈ metrics)
    (hq : collect_metric_scores m rs = qs.map XR.fin) :
    (qs ≠ [] →
      aggregate_results metrics rs m = some (XR.fin (qs.sum / (qs.length : ℚ))))
    ∧ (qs = [] → aggregate_results metrics rs m = some XR.nan)
    ∧ XR.nan ≠ XR.fin 0 := by
  refine ⟨?_, ?_, by simp⟩
  · intro hne
    simp only [aggregate_results, if_pos hm, hq, nanmean_map_fin qs hne]
  · intro h0
    subst h0
    simp only [aggregate_results, if_pos hm, hq, List.map_nil]
    rfl

/-- Witness for C1 at a concrete two-sample run: the aggregate of the scores
one and zero is their mean, one half. -/
theorem aggregate_mean_or_undefined_witness :
    aggregate_results ["rouge_score"]
        [[("rouge_score", Score.num 1)], [("rouge_score", Score.num 0)]] "rouge_score"
      = some (XR.fin (([1, 0] : List ℚ).sum / ((([1, 0] : List ℚ).length : ℕ) : ℚ))) :=
  (aggregate_mean_or_undefined ["rouge_score"]
      [[("rouge_score", Score.num 1)], [("rouge_score", Score.num 0)]]
      "rouge_score" [1, 0] (by decide) (by decide) (by rfl)).1 (by decide)

/-- C2 counterexample: an infinite score passes the aggregation filter of
`evaluate_dataset`.  With a single positive-infinity rouge score the collected
list is exactly that infinite value and the reported aggregate is positive
infinity, not the NaN marker that would result had the infinity been excluded
as the claim states. -/
theorem infinite_score_kept_counterexample :
    collect_metric_scores "rouge_score" [[("rouge_score", Score.inf)]] = [XR.pinf]
    ∧ aggregate_results ["rouge_score"] [[("rouge_score", Score.inf)]] "rouge_score"
        = some XR.pinf
    ∧ XR.pinf ≠ XR.nan := by
  refine ⟨rfl, rfl, by simp⟩

/-- C2 amended: during aggregation `evaluate_dataset` drops exactly the scores
that are non-numeric or NaN; both infinities pass the filter and enter the
mean, and a legitimate finite zero score is included. -/
theorem score_filter_amended :
    (∀ sc : Score, sc.keep = true ↔ (sc ≠ Score.nan ∧ sc ≠ Score.nonNum))
    ∧ collect_metric_scores "rouge_score" [[("rouge_score", Score.num 0)]] = [XR.fin 0]
    ∧ collect_metric_scores "rouge_score"
        [[("rouge_score", Score.inf), ("rouge_score", Score.nan),
          ("rouge_score", Score.nonNum)]] = [XR.pinf] := by
  refine ⟨?_, rfl, rfl⟩
  intro sc
  cases sc <;> simp [Score.keep]

/-- C3: `evaluate_sample` dispatches exactly the requested metric computers:
the task names are the supported names occurring in the requested list; when
every requested name is supported, a computer is invoked if and only if its
name was requested; and a request containing only the rouge metric dispatches
no call that uses the judge model or the embedding model. -/
theorem evaluate_sample_exact_dispatch (s : Sample) (metrics : List String) :
    ((metricTasks s metrics).map Prod.fst
        = supportedMetrics.filter (fun m => m ∈ metrics))
    ∧ ((∀ m ∈ metrics, m ∈ supportedMetrics) →
        ∀ m, m ∈ (metricTasks s metrics).map Prod.fst ↔ m ∈ metrics)
    ∧ ((∀ m ∈ metrics, m = "rouge_score") →
        ∀ p ∈ metricTasks s metrics,
          p.2.usesJudge = false ∧ p.2.usesEmbedding = false) := by
  refine ⟨metricTasks_names s metrics, ?_, ?_⟩
  · intro hsub m
    rw [metricTasks_names s metrics, List.mem_filter]
    simp only [decide_eq_true_eq]
    exact ⟨fun h => h.2, fun h => ⟨hsub m h, h⟩⟩
  · intro hall p hp
    have h2 : "answer_correctness" ∉ metrics := fun h => by simpa using hall _ h
    have h3 : "coverage_score" ∉ metrics := fun h => by simpa using hall _ h
    have h4 : "faithfulness" ∉ metrics := fun h => by simpa using hall _ h
    by_cases h1 : "rouge_score" ∈ metrics
    · simp only [metricTasks, if_pos h1, if_neg h2, if_neg h3, if_neg h4,
        List.append_nil, List.mem_singleton] at hp
      subst hp
      exact ⟨rfl, rfl⟩
    · simp [metricTasks, h1, h2, h3, h4] at hp

/-- Witness for C3 at a concrete rouge-only request: the rouge computer is
invoked exactly when requested and its call touches neither the judge model
nor the embedding model. -/
theorem evaluate_sample_exact_dispatch_witness :
    ("rouge_score" ∈ (metricTasks sample0 ["rouge_score"]).map Prod.fst
        ↔ "rouge_score" ∈ ["rouge_score"])
    ∧ (("rouge_score", MetricCall.rougeCall "a0" "g0").2.usesJudge = false
        ∧ ("rouge_score", MetricCall.rougeCall "a0" "g0").2.usesEmbedding = false) :=
  ⟨(evaluate_sample_exact_dispatch sample0 ["rouge_score"]).2.1 (by decide) "rouge_score",
   (evaluate_sample_exact_dispatch sample0 ["rouge_score"]).2.2 (by decide)
     ("rouge_score", MetricCall.rougeCall "a0" "g0") (by decide)⟩

/-- C4: the static configuration maps type1 and type2 to exactly the rouge and
answer-correctness metrics, type3 to exactly answer-correctness and coverage,
and type4 to exactly answer-correctness, coverage and faithfulness, and for
every sample of a group the metrics evaluated by `evaluate_sample` are exactly
that group's configured list. -/
theorem metric_config_exact :
    metric_config "type1" = ["rouge_score", "answer_correctness"]
    ∧ metric_config "type2" = ["rouge_score", "answer_correctness"]
    ∧ metric_config "type3" = ["answer_correctness", "coverage_score"]
    ∧ metric_config "type4" = ["answer_correctness", "coverage_score", "faithfulness"]
    ∧ (∀ qt ∈ questionTypes, ∀ s : Sample,
        (metricTasks s (metric_config qt)).map Prod.fst = metric_config qt) := by
  refine ⟨rfl, rfl, rfl, rfl, ?_⟩
  intro qt hqt s
  rw [metricTasks_names]
  fin_cases hqt <;> decide

/-- Witness for C4 at the type3 group with a concrete sample: exactly the
configured metrics for type3 are evaluated. -/
theorem metric_config_exact_witness :
    (metricTasks sample0 (metric_config "type3")).map Prod.fst
      = metric_config "type3" :=
  metric_config_exact.2.2.2.2 "type3" (by decide) sample0

/-- C5: in a failure-free run over N samples, `evaluate_dataset` collects
exactly N per-sample result dicts, one per sample — none skipped, none
duplicated — for every completion order of the concurrent tasks, and then
aggregates exactly those results. -/
theorem dataset_fanout_complete (scores : MetricCall → Score) (samples : List Sample)
    (metrics : List String) (order : List Nat)
    (h : order.Perm (List.range samples.length)) :
    ∃ rs : List SampleResult,
      collectedResults (datasetTasks (okOracle scores) samples metrics) order
        = Except.ok rs
      ∧ rs.length = samples.length
      ∧ rs.Perm (samples.map (fun s => sampleResultOk scores s metrics))
      ∧ evaluate_dataset (okOracle scores) samples metrics order
          = Except.ok (aggregate_results metrics rs) :=
  collected_fanout scores samples metrics order h

/-- Witness for C5 at a two-sample group whose second task completes first. -/
theorem dataset_fanout_complete_witness :
    ∃ rs : List SampleResult,
      collectedResults (datasetTasks (okOracle scores0) [sample0, sample1]
          ["rouge_score"]) [1, 0] = Except.ok rs
      ∧ rs.length = [sample0, sample1].length
      ∧ rs.Perm ([sample0, sample1].map (fun s => sampleResultOk scores0 s ["rouge_score"]))
      ∧ evaluate_dataset (okOracle scores0) [sample0, sample1] ["rouge_score"] [1, 0]
          = Except.ok (aggregate_results ["rouge_score"] rs) :=
  dataset_fanout_complete scores0 [sample0, sample1] ["rouge_score"] [1, 0] (by decide)

/-- C6: the aggregation step of `evaluate_dataset` is invariant under
permutation of the collected per-sample results: any two collection orders of
the same results yield the same metric-to-score mapping.  The `hkeys`
hypothesis records that every result key was initialized in the results dict,
as holds for every dict `evaluate_sample` returns. -/
theorem aggregate_perm_invariant (metrics : List String)
    (rs1 rs2 : List SampleResult)
    (_hkeys : ∀ r ∈ rs1, ∀ p ∈ r, p.1 ∈ metrics)
    (h : rs1.Perm rs2) :
    aggregate_results metrics rs1 = aggregate_results metrics rs2 := by
  funext m
  unfold aggregate_results
  by_cases hm : m ∈ metrics
  · rw [if_pos hm, if_pos hm]
    congr 1
    apply nanmean_perm
    exact ((h.map _).flatten).map _
  · rw [if_neg hm, if_neg hm]

/-- Witness for C6 at two orderings of the same two sample results. -/
theorem aggregate_perm_invariant_witness :
    aggregate_results ["rouge_score"]
        [[("rouge_score", Score.num 1)], [("rouge_score", Score.num 0)]]
      = aggregate_results ["rouge_score"]
        [[("rouge_score", Score.num 0)], [("rouge_score", Score.num 1)]] :=
  aggregate_perm_invariant ["rouge_score"]
    [[("rouge_score", Score.num 1)], [("rouge_score", Score.num 0)]]
    [[("rouge_score", Score.num 0)], [("rouge_score", Score.num 1)]]
    (by decide) (by decide)

/-- C7: an exception in an individual metric computation propagates: if any
dispatched computation of a sample raises, `evaluate_sample` raises rather
than returning a partial dict, and if any awaited per-sample task of a group
raises, `evaluate_dataset` raises rather than producing an aggregate. -/
theorem metric_error_propagates (oracle : Oracle) (s : Sample)
    (metrics : List String) (samples : List Sample) (order : List Nat) :
    ((∃ p ∈ metricTasks s metrics, ∃ e, oracle p.2 = Except.error e) →
      ∃ e, evaluate_sample oracle s metrics = Except.error e)
    ∧ ((∃ i ∈ order, ∃ e,
          (datasetTasks oracle samples metrics).getD i noTask = Except.error e) →
      ∃ e, evaluate_dataset oracle samples metrics order = Except.error e) := by
  constructor
  · exact gatherScores_error oracle (metricTasks s metrics)
  · intro hex
    obtain ⟨e, he⟩ := collectedResults_error _ order hex
    exact ⟨e, by rw [evaluate_dataset, he]; rfl⟩

/-- Witness for C7 at a one-sample group whose only metric computation
raises: the whole group evaluation fails. -/
theorem metric_error_propagates_witness :
    ∃ e, evaluate_dataset failOracle [sample0] ["rouge_score"] [0] = Except.error e :=
  (metric_error_propagates failOracle sample0 ["rouge_score"] [sample0] [0]).2
    ⟨0, by decide, "judge model unavailable", by rfl⟩

/-- C8: serializing an AggregateReport to the JSON output format (as
`json.dump` with its default `allow_nan=True` does, emitting the `NaN`
literal for undefined aggregates) and parsing it back yields the same
group-to-metric-to-score mapping exactly; no key is dropped and the NaN
marker is serialized as a value distinct from the numeric zero. -/
theorem report_roundtrip (r : AggregateReport) :
    parseReport (serializeReport r) = some r
    ∧ serializeScore XR.nan ≠ serializeScore (XR.fin 0) :=
  ⟨parseGroupFields_serialize r, fun h => Jval.noConfusion h⟩

/-- C9 counterexample: with the API key variable present in the environment
but set to the empty string, `main` raises its ValueError even though the
credential is present, so the check does change subsequent behavior for a
present credential; the claim holds only for present non-empty values. -/
theorem api_key_empty_counterexample :
    (envEmptyKey "OPENAI_API_KEY").isSome = true
    ∧ mainActions envEmptyKey args0
        = Except.error "OPENAI_API_KEY environment variable is not set" :=
  ⟨rfl, rfl⟩

/-- C9 amended: if the API key variable is absent or set to the empty string
(both falsy to `os.getenv` under Python truthiness), `main` raises its
descriptive ValueError before any client construction, file access or
evaluation work (the error trace is empty); if it is present and non-empty,
the check changes nothing and the driver body runs unchanged. -/
theorem api_key_check_amended (env : String → Option String) (args : Args) :
    ((env "OPENAI_API_KEY" = none ∨ env "OPENAI_API_KEY" = some "") →
      mainActions env args
        = Except.error "OPENAI_API_KEY environment variable is not set")
    ∧ (∀ s, env "OPENAI_API_KEY" = some s → s ≠ "" →
        mainActions env args = Except.ok (driverBody s args)) := by
  constructor
  · rintro (h | h) <;> simp [mainActions, getenvTruthy, h]
  · intro s hs hne
    have ht : getenvTruthy env "OPENAI_API_KEY" = true := by
      simp [getenvTruthy, hs, hne]
    simp [mainActions, ht, hs]

/-- Witness for C9 amended at an environment holding a non-empty key: the
driver body runs unchanged. -/
theorem api_key_check_amended_witness :
    mainActions envWithKey args0 = Except.ok (driverBody "sk-test" args0) :=
  (api_key_check_amended envWithKey args0).2 "sk-test" (by rfl) (by decide)

/-- C10: the mapping returned by `evaluate_dataset` has exactly the requested
metric names as keys; a requested name outside the four supported metrics is
silently ignored by `evaluate_sample` — it appears in no per-sample result —
and therefore receives the NaN aggregate rather than causing an error. -/
theorem unknown_metric_ignored (scores : MetricCall → Score) (samples : List Sample)
    (metrics : List String) (order : List Nat) (m : String)
    (hm : m ∈ metrics) (hsup : m ∉ supportedMetrics)
    (h : order.Perm (List.range samples.length)) :
    ∃ f, evaluate_dataset (okOracle scores) samples metrics order = Except.ok f
      ∧ (∀ m2, (f m2).isSome = true ↔ m2 ∈ metrics)
      ∧ (∀ s : Sample, ∀ p ∈ sampleResultOk scores s metrics, p.1 ≠ m)
      ∧ f m = some XR.nan := by
  obtain ⟨rs, hcoll, hlen, hperm, heval⟩ := collected_fanout scores samples metrics order h
  have hnokey : ∀ s : Sample, ∀ p ∈ sampleResultOk scores s metrics, p.1 ≠ m := by
    intro s p hp
    have hfst : p.1 ∈ (metricTasks s metrics).map Prod.fst := by
      unfold sampleResultOk at hp
      obtain ⟨q, hq, rfl⟩ := List.mem_map.mp hp
      exact List.mem_map.mpr ⟨q, hq, rfl⟩
    rw [metricTasks_names] at hfst
    intro heq
    rw [heq] at hfst
    exact hsup (List.mem_of_mem_filter hfst)
  refine ⟨aggregate_results metrics rs, heval, ?_, hnokey, ?_⟩
  · intro m2
    unfold aggregate_results
    by_cases hm2 : m2 ∈ metrics <;> simp [hm2]
  · have hempty : collect_metric_scores m rs = [] := by
      apply collect_metric_scores_no_key
      intro r hr p hp
      have hr2 : r ∈ samples.map (fun s => sampleResultOk scores s metrics) :=
        hperm.mem_iff.mp hr
      obtain ⟨s, _, rfl⟩ := List.mem_map.mp hr2
      exact hnokey s p hp
    unfold aggregate_results
    rw [if_pos hm, hempty]
    rfl

/-- Witness for C10 at a one-sample run requesting only an unsupported name:
that name keys the returned mapping with a NaN aggregate and occurs in no
per-sample result. -/
theorem unknown_metric_ignored_witness :
    ∃ f, evaluate_dataset (okOracle scores0) [sample0] ["bogus"] [0] = Except.ok f
      ∧ (∀ m2, (f m2).isSome = true ↔ m2 ∈ ["bogus"])
      ∧ (∀ s : Sample, ∀ p ∈ sampleResultOk scores0 s ["bogus"], p.1 ≠ "bogus")
      ∧ f "bogus" = some XR.nan :=
  unknown_metric_ignored scores0 [sample0] ["bogus"] [0] "bogus"
    (by decide) (by decide) (by decide)
